import Mathlib

/-!
Shallow embedding of `profile_process` from `process_plot/api.py`.

The Python function polls an OS process (via the `psutil` library) in a
`while True` loop and writes delimited text rows to an optional output
stream.  The OS / `psutil` side is nondeterministic, so it is modelled as
an environment: a list of per-tick observations (`TickObs`), one consumed
per loop iteration, together with session-level facts (`Env`).  Numeric
metric values are carried in their already-rendered string form (Python
applies `str(...)` to each field when writing), except values whose
numeric content the code inspects: `cpu_percent` is `Option String`
(`none` models Python `None`, produced by `psutil.Process.as_dict` when a
sub-query hits `AccessDenied`/`ZombieProcess`), and the wall-clock time is
a rational so that `elapsed = now - create_time` can be compared across
ticks.  Fallible `psutil` calls are `Option`-valued: `none` models the
call raising (`NoSuchProcess`, or `NoSuchProcess`/`AccessDenied` for the
file-count query).

The loop itself can run forever; the embedding consumes the finite
observation list and returns `PResult.outOfTicks` when the list ends with
the loop still running.  Every other constructor corresponds to an exit of
the Python function: `normal` (the `break` statements, i.e. a plain
return), `timeout` (`raise TimeoutError` at the iteration cap),
`noSuchProcess` (`psutil.NoSuchProcess` propagating from
`psutil.Process(pid)` when the pid does not exist), `assertError` (the
`assert POSIX or WINDOWS` guard failing).
-/

/-- Result of one run of `profile_process`: how the Python call ended. -/
inductive PResult where
  | normal
  | timeout
  | noSuchProcess
  | assertError
  | outOfTicks
deriving DecidableEq, Repr

/-- The metric bag returned by `psutil.Process.as_dict` for one process,
with every field in the rendered form in which it reaches the output
(`str` of the Python value).  `cpu_percent` keeps its `None`-ness because
line 100 of api.py branches on it; `none` renders as `"None"` (Python
`str(None)`) should it reach a row. -/
structure ProcData where
  pid : String
  cpu_user : String
  cpu_sys : String
  cpu_percent : Option String
  num_threads : String
  mem_rss : String
  mem_vms : String
deriving DecidableEq, Repr, Inhabited

/-- What the OS reports during one iteration of the polling loop.
`main_data = none` models `proc.as_dict` raising `NoSuchProcess`; an entry
`none` in `children` models that child vanishing between enumeration by
`proc.children(recursive=True)` and its `as_dict` call raising
`NoSuchProcess`; `files_query = none` models `num_fds`/`num_handles`
raising `NoSuchProcess` or `AccessDenied`. -/
structure TickObs where
  now : ℚ
  is_running : Bool
  is_zombie : Bool
  main_data : Option ProcData
  children : List (Option ProcData)
  files_query : Option String
deriving DecidableEq, Repr

/-- Session-level environment: the module globals `POSIX`/`WINDOWS`,
whether `psutil.Process(pid)` succeeds, the cached process creation time
(psutil caches it at handle construction), and the text rendering of a
Python float (`str`), kept abstract. -/
structure Env where
  posix : Bool
  windows : Bool
  pid_exists : Bool
  create_time : ℚ
  showFloat : ℚ → String

/-- The keyword arguments of `profile_process` (the pid itself only
matters through `Env.pid_exists`).  `has_output_stream` is whether
`output_stream` is not `None`. -/
structure Config where
  poll_interval : ℚ
  max_iterations : Option Nat
  has_output_stream : Bool
  flush_output : Bool
  headers : Bool
  output_separator : String
  output_files_num : Bool
  child_processes : Bool
deriving DecidableEq, Repr

/-- `COLUMNS_DESCRIPT` from api.py, verbatim. -/
def COLUMNS_DESCRIPT : List (String × String) :=
  [("type", "main or child"),
   ("pid", "Process ID"),
   ("elapsed_secs", "Cumulative time since the process was created."),
   ("cpu_time_user_secs", "Time spent executing in user mode"),
   ("cpu_time_sys_secs", "Time spent executing in kernel mode"),
   ("cpu_percent",
    "Percentage of process times to system CPU times elapsed since last call"),
   ("threads_num", "Number of threads currently used"),
   ("memory_rss_bytes", "Resident Set Size; the non-swapped physical memory used"),
   ("memory_vms_bytes", "Virtual Memory Size: the virtual memory used"),
   ("files_num", "Number of file descriptors (POSIX) or handles (Windows) used")]

/-- Lines 59-63 of api.py: the column names, with `"files_num"` removed
(Python `list.remove`) when `output_files_num` is false. -/
def colHeaders (output_files_num : Bool) : List String :=
  if output_files_num then COLUMNS_DESCRIPT.map Prod.fst
  else (COLUMNS_DESCRIPT.map Prod.fst).erase "files_num"

/-- One entry of the `results` dict built at lines 105-116 of api.py,
looked up by column name.  `isMain` reflects `item.get("is_main")` (only
the main bag carries `is_main=True`); `numFiles` reflects
`item.get("num_files", "-")` (the key is only ever set on the main bag,
and only when the platform query succeeded). -/
def rowValue (env : Env) (isMain : Bool) (elapsed : ℚ) (item : ProcData)
    (numFiles : Option String) : String → String
  | "pid" => item.pid
  | "type" => if isMain then "main" else "child"
  | "elapsed_secs" => env.showFloat elapsed
  | "cpu_time_user_secs" => item.cpu_user
  | "cpu_time_sys_secs" => item.cpu_sys
  | "cpu_percent" =>
    match item.cpu_percent with
    | some s => s
    | none => "None"
  | "threads_num" => item.num_threads
  | "memory_rss_bytes" => item.mem_rss
  | "memory_vms_bytes" => item.mem_vms
  | "files_num" =>
    match numFiles with
    | some s => s
    | none => "-"
  | _ => ""

/-- Line 118 of api.py: the field list of one written row, in header
order (`str(results[name]) for name in col_headers`). -/
def rowFields (cfg : Config) (env : Env) (isMain : Bool) (elapsed : ℚ)
    (item : ProcData) (numFiles : Option String) : List String :=
  (colHeaders cfg.output_files_num).map (rowValue env isMain elapsed item numFiles)

/-- Lines 104-120 of api.py: the rows written for one tick, main bag
first (`[data, *child_data]`), children never carrying a `num_files`
key. -/
def emitRows (cfg : Config) (env : Env) (elapsed : ℚ) (d : ProcData)
    (cds : List ProcData) (numFiles : Option String) : List (List String) :=
  rowFields cfg env true elapsed d numFiles ::
    cds.map (fun c => rowFields cfg env false elapsed c none)

/-- Sequencing of the list comprehension at lines 83-85 of api.py: if any
child's `as_dict` raises (`none`), the whole comprehension raises. -/
def seqOptions {α : Type} : List (Option α) → Option (List α)
  | [] => some []
  | none :: _ => none
  | some a :: rest => (seqOptions rest).map (fun l => a :: l)

/-- The `try` block at lines 76-87 of api.py: the running/zombie guard,
the main `as_dict`, and (when `child_processes`) the children
comprehension.  `none` means `psutil.NoSuchProcess` was raised (and will
be caught by the `except` clause, breaking the loop). -/
def fetchTick (cfg : Config) (t : TickObs) : Option (ProcData × List ProcData) :=
  if !t.is_running || t.is_zombie then none
  else
    match t.main_data with
    | none => none
    | some d =>
      if cfg.child_processes then
        match seqOptions t.children with
        | none => none
        | some cds => some (d, cds)
      else some (d, [])

/-- Lines 90-98 of api.py: the value stored under `data["num_files"]`
(`none` when the key is never set: collection disabled, or the query
raised and the `except ... pass` swallowed it). -/
def filesOf (cfg : Config) (env : Env) (t : TickObs) : Option String :=
  if cfg.output_files_num then
    if env.posix then t.files_query
    else if env.windows then t.files_query
    else none
  else none

/-- Line 124 of api.py: `iteration >= max_iterations` (with a `None` cap
never reached). -/
def matchesCap (cfg : Config) (iteration : Nat) : Bool :=
  match cfg.max_iterations with
  | none => false
  | some m => m ≤ iteration

/-- The rows actually written during one tick: none when `output_stream`
is `None` (the whole emission block sits under
`if output_stream is not None`). -/
def tickRowsIfStream (cfg : Config) (env : Env) (elapsed : ℚ) (d : ProcData)
    (cds : List ProcData) (numFiles : Option String) : List (List String) :=
  if cfg.has_output_stream then emitRows cfg env elapsed d cds numFiles else []

/-- What one loop iteration contributed to the observable behaviour:
the elapsed time computed at line 75, the rows written (each row is one
`write` call of the joined fields plus a newline), whether the stream was
flushed after the rows, and whether the end-of-iteration sleep (line 127)
was reached. -/
structure TickOut where
  elapsed : ℚ
  rows : List (List String)
  flushed : Bool
  slept : Bool
deriving DecidableEq, Repr, Inhabited

/-- The record produced by an iteration that `break`s: elapsed time was
computed, but nothing was written and no sleep happened. -/
def stopOut (env : Env) (t : TickObs) : TickOut :=
  ⟨t.now - env.create_time, [], false, false⟩

/-- One iteration of the `while True` body of api.py (lines 73-127) for a
tick observation `t`, where `it` is the value of `iteration` before the
`iteration += 1` at the top of the body and `recOut` is the behaviour of
the remaining iterations (used only when this one reaches the sleep). -/
def loopStep (cfg : Config) (env : Env) (t : TickObs) (it : Nat)
    (recOut : List TickOut × PResult) : List TickOut × PResult :=
  match fetchTick cfg t with
  | none => ([stopOut env t], PResult.normal)
  | some (d, cds) =>
    if d.cpu_percent.isNone then ([stopOut env t], PResult.normal)
    else if matchesCap cfg (it + 1) then
      ([⟨t.now - env.create_time,
         tickRowsIfStream cfg env (t.now - env.create_time) d cds (filesOf cfg env t),
         cfg.has_output_stream && cfg.flush_output, false⟩],
       PResult.timeout)
    else
      (⟨t.now - env.create_time,
        tickRowsIfStream cfg env (t.now - env.create_time) d cds (filesOf cfg env t),
        cfg.has_output_stream && cfg.flush_output, true⟩ :: recOut.1,
       recOut.2)

/-- The `while True` loop of api.py (lines 72-127), consuming one
observation per iteration. -/
def loop (cfg : Config) (env : Env) : Nat → List TickObs → List TickOut × PResult
  | _, [] => ([], PResult.outOfTicks)
  | it, t :: rest => loopStep cfg env t it (loop cfg env (it + 1) rest)

/-- `profile_process` (lines 33-127 of api.py), structured view: the
platform assertion (line 61), then — after the header write, which is not
part of this structured view — `psutil.Process(pid)` (line 71), then the
polling loop. -/
def profile_process (cfg : Config) (env : Env) (ticks : List TickObs) :
    List TickOut × PResult :=
  if cfg.output_files_num && !(env.posix || env.windows) then
    ([], PResult.assertError)
  else if !env.pid_exists then ([], PResult.noSuchProcess)
  else loop cfg env 0 ticks

/-- One observable effect on the output stream / scheduler: a `write`
call (one line: the given fields joined by the separator plus a newline),
a `flush` call, or a `time.sleep`. -/
inductive Event where
  | write (parts : List String)
  | flush
  | sleep
deriving DecidableEq, Repr

/-- Lines 65-68 of api.py: the header write (and optional flush),
performed only when `headers` is set and a stream is supplied. -/
def headerEvents (cfg : Config) : List Event :=
  if cfg.headers && cfg.has_output_stream then
    Event.write (colHeaders cfg.output_files_num) ::
      (if cfg.flush_output then [Event.flush] else [])
  else []

/-- The stream/scheduler effects of one loop iteration: the row writes,
then the flush (lines 121-122), then the sleep (line 127). -/
def tickEvents (t : TickOut) : List Event :=
  t.rows.map Event.write ++ (if t.flushed then [Event.flush] else []) ++
    (if t.slept then [Event.sleep] else [])

/-- `profile_process`, flat-trace view: the exact sequence of `write`,
`flush` and `sleep` effects, in program order (assertion first, then the
header block, then the per-iteration effects). -/
def profileTrace (cfg : Config) (env : Env) (ticks : List TickObs) :
    List Event × PResult :=
  if cfg.output_files_num && !(env.posix || env.windows) then
    ([], PResult.assertError)
  else
    (headerEvents cfg ++ ((profile_process cfg env ticks).1.map tickEvents).flatten,
     (profile_process cfg env ticks).2)

/-- The text of one `write` call: fields joined by the separator, plus
the trailing newline (lines 66 and 117-120 of api.py). -/
def renderLine (sep : String) (parts : List String) : String :=
  String.intercalate sep parts ++ "\n"

/-- The lines written to the stream, extracted from an effect trace. -/
def writesOf (es : List Event) : List (List String) :=
  es.filterMap (fun e =>
    match e with
    | Event.write p => some p
    | _ => none)

/-- A tick on which the loop keeps going: target running, not a zombie,
main `as_dict` succeeds with a non-`None` `cpu_percent`, and (when
children are collected) no child vanishes during its `as_dict`. -/
def goodTick (cfg : Config) (t : TickObs) : Bool :=
  t.is_running && !t.is_zombie &&
    (match t.main_data with
     | none => false
     | some d => d.cpu_percent.isSome) &&
    (!cfg.child_processes || t.children.all Option.isSome)

/-- A tick on which the `try` block raises `NoSuchProcess` or the
`cpu_percent is None` check fires — either way the loop `break`s. -/
def breaksTick (cfg : Config) (t : TickObs) : Bool :=
  match fetchTick cfg t with
  | none => true
  | some (d, _) => d.cpu_percent.isNone

/-- The three stopping conditions named by the specification: target no
longer running, target in zombie state, or the main `cpu_percent` reading
unavailable (`None`) on an otherwise fully queryable tick. -/
def stopsTick (cfg : Config) (t : TickObs) : Bool :=
  !t.is_running || t.is_zombie ||
    (match t.main_data with
     | none => false
     | some d =>
       d.cpu_percent.isNone &&
         (!cfg.child_processes || t.children.all Option.isSome))

/-- A tick whose main process is fully queryable but where some child
vanishes between enumeration and its `as_dict` call. -/
def vanishedChildTick (cfg : Config) (t : TickObs) : Bool :=
  t.is_running && !t.is_zombie && t.main_data.isSome &&
    cfg.child_processes && t.children.any Option.isNone

/-- The main metric bag of a tick on which `as_dict` succeeded. -/
def mainOf (t : TickObs) : ProcData :=
  t.main_data.getD default

/-- The child metric bags collected on a tick where no child vanished. -/
def childrenOf (cfg : Config) (t : TickObs) : List ProcData :=
  if cfg.child_processes then t.children.reduceOption else []

/-- What the loop contributes for a tick it survives: elapsed time, the
emitted rows (empty when no stream), the flush flag, and whether the
iteration ended in a sleep (`true`) or in the `TimeoutError` (`false`). -/
def goodOut (cfg : Config) (env : Env) (t : TickObs) (slept : Bool) : TickOut :=
  ⟨t.now - env.create_time,
   tickRowsIfStream cfg env (t.now - env.create_time) (mainOf t)
     (childrenOf cfg t) (filesOf cfg env t),
   cfg.has_output_stream && cfg.flush_output, slept⟩

/-- The output of a run of exactly `n ≥ 1` surviving ticks ending at the
iteration cap: the first `n - 1` ticks sleep, the last raises
`TimeoutError` instead. -/
def goodRun (cfg : Config) (env : Env) : Nat → List TickObs → List TickOut
  | 0, _ => []
  | _, [] => []
  | 1, t :: _ => [goodOut cfg env t false]
  | n + 2, t :: rest => goodOut cfg env t true :: goodRun cfg env (n + 1) rest

/-! ### Concrete fixtures used to exercise the embedding -/

/-- A fully queryable metric bag for the main process. -/
def dW : ProcData := ⟨"100", "1.5", "0.5", some "12.0", "4", "1000", "2000"⟩

/-- A fully queryable metric bag for a child process. -/
def cW : ProcData := ⟨"101", "0.1", "0.2", some "3.0", "1", "500", "600"⟩

/-- A POSIX session environment whose pid exists. -/
def envW : Env := ⟨true, false, true, 0, fun _ => "E"⟩

/-- A fully queryable tick with one surviving child and a successful
file-count query. -/
def tickW : TickObs := ⟨5, true, false, some dW, [some cW], some "7"⟩

/-- A tick on which the target is reported in zombie state. -/
def tickZombie : TickObs := ⟨6, true, true, some dW, [], some "7"⟩

/-- A tick on which one child vanishes between enumeration and metric
fetch while a second child survives. -/
def tickVanish : TickObs := ⟨5, true, false, some dW, [none, some cW], some "7"⟩

/-- A baseline configuration: poll every second, cap of two iterations,
stream supplied, no flushing, headers on, comma separator, no file
counting, children collected. -/
def cfgW : Config := ⟨1, some 2, true, false, true, ",", false, true⟩

/-! ### Step lemmas about the loop -/

theorem seqOptions_eq_some {α : Type} (l : List (Option α))
    (h : l.all Option.isSome = true) : seqOptions l = some l.reduceOption := by
  induction l with
  | nil => rfl
  | cons o rest ih =>
    cases o with
    | none => simp at h
    | some a =>
      simp only [List.all_cons, Bool.and_eq_true] at h
      simp [seqOptions, ih h.2, List.reduceOption_cons_of_some]

theorem goodTick_cpu {cfg : Config} {t : TickObs} (h : goodTick cfg t = true) :
    (mainOf t).cpu_percent.isSome = true := by
  unfold goodTick at h
  cases hm : t.main_data with
  | none => rw [hm] at h; simp at h
  | some d =>
    rw [hm] at h
    simp only [Bool.and_eq_true] at h
    simp [mainOf, hm, h.1.2]

theorem fetchTick_good {cfg : Config} {t : TickObs} (h : goodTick cfg t = true) :
    fetchTick cfg t = some (mainOf t, childrenOf cfg t) := by
  unfold goodTick at h
  cases hm : t.main_data with
  | none => rw [hm] at h; simp at h
  | some d =>
    rw [hm] at h
    simp only [Bool.and_eq_true, Bool.not_eq_true', Bool.or_eq_true] at h
    obtain ⟨⟨⟨hrun, hzom⟩, _⟩, hch⟩ := h
    cases hcp : cfg.child_processes with
    | false => simp [fetchTick, childrenOf, hrun, hzom, hm, hcp, mainOf]
    | true =>
      have hall : t.children.all Option.isSome = true := by
        rcases hch with h1 | h1
        · rw [hcp] at h1; cases h1
        · exact h1
      simp [fetchTick, childrenOf, hrun, hzom, hm, hcp, mainOf,
        seqOptions_eq_some t.children hall]

theorem loop_cons (cfg : Config) (env : Env) (it : Nat) (t : TickObs)
    (rest : List TickObs) :
    loop cfg env it (t :: rest) = loopStep cfg env t it (loop cfg env (it + 1) rest) :=
  rfl

theorem goodTick_cpu_some {cfg : Config} {t : TickObs} (h : goodTick cfg t = true) :
    ∃ x, (mainOf t).cpu_percent = some x := by
  have hs := goodTick_cpu h
  exact Option.isSome_iff_exists.mp hs

theorem loop_break {cfg : Config} {env : Env} {t : TickObs} (it : Nat)
    (rest : List TickObs) (h : breaksTick cfg t = true) :
    loop cfg env it (t :: rest) = ([stopOut env t], PResult.normal) := by
  rw [loop_cons]
  unfold breaksTick at h
  unfold loopStep
  cases hf : fetchTick cfg t with
  | none => simp [hf]
  | some p =>
    obtain ⟨d, cds⟩ := p
    rw [hf] at h
    simp only [Option.isNone_iff_eq_none] at h
    simp [hf, h]

theorem loop_cont {cfg : Config} {env : Env} {t : TickObs} (it : Nat)
    (rest : List TickObs) (hg : goodTick cfg t = true)
    (hcap : matchesCap cfg (it + 1) = false) :
    loop cfg env it (t :: rest) =
      (goodOut cfg env t true :: (loop cfg env (it + 1) rest).1,
       (loop cfg env (it + 1) rest).2) := by
  rw [loop_cons]
  unfold loopStep
  rw [fetchTick_good hg]
  obtain ⟨x, hx⟩ := goodTick_cpu_some hg
  simp [hx, hcap, goodOut]

theorem loop_cap {cfg : Config} {env : Env} {t : TickObs} (it : Nat)
    (rest : List TickObs) (hg : goodTick cfg t = true)
    (hcap : matchesCap cfg (it + 1) = true) :
    loop cfg env it (t :: rest) = ([goodOut cfg env t false], PResult.timeout) := by
  rw [loop_cons]
  unfold loopStep
  rw [fetchTick_good hg]
  obtain ⟨x, hx⟩ := goodTick_cpu_some hg
  simp [hx, hcap, goodOut]

theorem matchesCap_of_lt {cfg : Config} {i : Nat}
    (h : ∀ m, cfg.max_iterations = some m → i < m) : matchesCap cfg i = false := by
  unfold matchesCap
  cases hc : cfg.max_iterations with
  | none => rfl
  | some m =>
    have := h m hc
    simp only [decide_eq_false_iff_not, Nat.not_le]
    omega

theorem matchesCap_of_le {cfg : Config} {i m : Nat}
    (hc : cfg.max_iterations = some m) (h : m ≤ i) : matchesCap cfg i = true := by
  unfold matchesCap
  rw [hc]
  simpa using h

theorem seqOptions_eq_none {α : Type} (l : List (Option α))
    (h : l.any Option.isNone = true) : seqOptions l = none := by
  induction l with
  | nil => simp at h
  | cons o rest ih =>
    cases o with
    | none => rfl
    | some a =>
      simp only [List.any_cons, Option.isNone_some, Bool.false_or] at h
      simp [seqOptions, ih h]

theorem stopsTick_breaks {cfg : Config} {t : TickObs}
    (h : stopsTick cfg t = true) : breaksTick cfg t = true := by
  unfold stopsTick at h
  unfold breaksTick fetchTick
  cases hrun : t.is_running with
  | false => simp
  | true =>
    cases hzom : t.is_zombie with
    | true => simp
    | false =>
      rw [hrun, hzom] at h
      simp only [Bool.not_true, Bool.false_or] at h
      cases hm : t.main_data with
      | none => rw [hm] at h; simp at h
      | some d =>
        rw [hm] at h
        simp only [Bool.and_eq_true, Bool.or_eq_true] at h
        obtain ⟨hcp, hch⟩ := h
        cases hcq : cfg.child_processes with
        | false => simp [hrun, hzom, hm, hcq, hcp]
        | true =>
          have hall : t.children.all Option.isSome = true := by
            rw [hcq] at hch
            rcases hch with h1 | h1
            · cases h1
            · exact h1
          simp [hrun, hzom, hm, hcq, hcp,
            seqOptions_eq_some t.children hall]

theorem vanishedChild_breaks {cfg : Config} {t : TickObs}
    (h : vanishedChildTick cfg t = true) : breaksTick cfg t = true := by
  unfold vanishedChildTick at h
  simp only [Bool.and_eq_true, Bool.not_eq_true', Option.isSome_iff_exists] at h
  obtain ⟨⟨⟨⟨hrun, hzom⟩, d, hm⟩, hcq⟩, hany⟩ := h
  simp [breaksTick, fetchTick, hrun, hzom, hm, hcq,
    seqOptions_eq_none t.children hany]

theorem run_pre_break {cfg : Config} {env : Env} {t : TickObs}
    (post : List TickObs) (hbrk : breaksTick cfg t = true) (pre : List TickObs) :
    ∀ it : Nat, (∀ u ∈ pre, goodTick cfg u = true) →
      (∀ m, cfg.max_iterations = some m → it + pre.length < m) →
      loop cfg env it (pre ++ t :: post) =
        (pre.map (fun u => goodOut cfg env u true) ++ [stopOut env t],
         PResult.normal) := by
  induction pre with
  | nil =>
    intro it _ _
    simpa using loop_break it post hbrk
  | cons u pre' ih =>
    intro it hpre hcap
    have hg : goodTick cfg u = true := hpre u (by simp)
    have hcapf : matchesCap cfg (it + 1) = false := by
      refine matchesCap_of_lt fun m hm => ?_
      have := hcap m hm
      simp only [List.length_cons] at this
      omega
    rw [List.cons_append, loop_cont it (pre' ++ t :: post) hg hcapf]
    rw [ih (it + 1) (fun v hv => hpre v (List.mem_cons_of_mem _ hv))
      (fun m hm => by have := hcap m hm; simp only [List.length_cons] at this; omega)]
    simp

theorem loop_goodRun {cfg : Config} {env : Env} {m : Nat}
    (hm : cfg.max_iterations = some m) :
    ∀ (n : Nat) (ts : List TickObs) (it : Nat), 1 ≤ n → n ≤ ts.length →
      (∀ u ∈ ts.take n, goodTick cfg u = true) → it + n = m →
      loop cfg env it ts = (goodRun cfg env n ts, PResult.timeout) := by
  intro n
  induction n with
  | zero => intro ts it h1; omega
  | succ k ih =>
    intro ts it _ hlen hgood hit
    cases ts with
    | nil => simp at hlen
    | cons t rest =>
      have hg : goodTick cfg t = true := by
        refine hgood t ?_
        rw [List.take_succ_cons]
        exact List.mem_cons_self t _
      cases k with
      | zero =>
        have hcap : matchesCap cfg (it + 1) = true :=
          matchesCap_of_le hm (by omega)
        rw [loop_cap it rest hg hcap]
        rfl
      | succ k' =>
        have hcap : matchesCap cfg (it + 1) = false :=
          matchesCap_of_lt fun m' hm' => by
            rw [hm] at hm'
            cases hm'
            omega
        rw [loop_cont it rest hg hcap]
        rw [ih rest (it + 1) (by omega)
          (by simp only [List.length_cons] at hlen; omega)
          (fun u hu => hgood u (by rw [List.take_succ_cons]; exact List.mem_cons_of_mem _ hu))
          (by omega)]
        rfl

theorem goodRun_length {cfg : Config} {env : Env} :
    ∀ (n : Nat) (ts : List TickObs), 1 ≤ n → n ≤ ts.length →
      (goodRun cfg env n ts).length = n := by
  intro n
  induction n with
  | zero => intro ts h1; omega
  | succ k ih =>
    intro ts _ hlen
    cases ts with
    | nil => simp at hlen
    | cons t rest =>
      cases k with
      | zero => rfl
      | succ k' =>
        show (goodOut cfg env t true :: goodRun cfg env (k' + 1) rest).length = k' + 2
        rw [List.length_cons, ih rest (by omega)
          (by simp only [List.length_cons] at hlen; omega)]

theorem goodRun_slept {cfg : Config} {env : Env} :
    ∀ (n : Nat) (ts : List TickObs), 1 ≤ n → n ≤ ts.length →
      (goodRun cfg env n ts).map TickOut.slept =
        List.replicate (n - 1) true ++ [false] := by
  intro n
  induction n with
  | zero => intro ts h1; omega
  | succ k ih =>
    intro ts _ hlen
    cases ts with
    | nil => simp at hlen
    | cons t rest =>
      cases k with
      | zero => rfl
      | succ k' =>
        show (goodOut cfg env t true :: goodRun cfg env (k' + 1) rest).map TickOut.slept = _
        rw [List.map_cons, ih rest (by omega)
          (by simp only [List.length_cons] at hlen; omega)]
        show TickOut.slept (goodOut cfg env t true) :: _ = _
        simp [goodOut, List.replicate_succ]

theorem goodRun_mem {cfg : Config} {env : Env} :
    ∀ (n : Nat) (ts : List TickObs) (g : TickOut), g ∈ goodRun cfg env n ts →
      ∃ u b, g = goodOut cfg env u b := by
  intro n
  induction n with
  | zero => intro ts g hg; simp [goodRun] at hg
  | succ k ih =>
    intro ts g hg
    cases ts with
    | nil => simp [goodRun] at hg
    | cons t rest =>
      cases k with
      | zero =>
        have : g = goodOut cfg env t false := by simpa [goodRun] using hg
        exact ⟨t, false, this⟩
      | succ k' =>
        rcases List.mem_cons.mp hg with h1 | h1
        · exact ⟨t, true, h1⟩
        · exact ih rest g h1

theorem rowFields_length (cfg : Config) (env : Env) (isMain : Bool) (elapsed : ℚ)
    (item : ProcData) (nf : Option String) :
    (rowFields cfg env isMain elapsed item nf).length =
      (colHeaders cfg.output_files_num).length :=
  List.length_map _ _

theorem emitRows_row_length {cfg : Config} {env : Env} {elapsed : ℚ} {d : ProcData}
    {cds : List ProcData} {nf : Option String} :
    ∀ r ∈ emitRows cfg env elapsed d cds nf,
      r.length = (colHeaders cfg.output_files_num).length := by
  intro r hr
  rcases List.mem_cons.mp hr with h1 | h1
  · rw [h1]; exact rowFields_length ..
  · obtain ⟨c, _, hc⟩ := List.mem_map.mp h1
    rw [← hc]; exact rowFields_length ..

theorem fetchTick_no_children {cfg : Config} {t : TickObs} {d : ProcData}
    {cds : List ProcData} (hcp : cfg.child_processes = false)
    (hf : fetchTick cfg t = some (d, cds)) : cds = [] := by
  unfold fetchTick at hf
  by_cases hg : (!t.is_running || t.is_zombie) = true
  · rw [if_pos hg] at hf; cases hf
  · rw [if_neg hg] at hf
    cases hm : t.main_data with
    | none => rw [hm] at hf; cases hf
    | some d' =>
      rw [hm, hcp] at hf
      simp at hf
      exact hf.2

theorem loop_rows_shape {cfg : Config} {env : Env} :
    ∀ (ts : List TickObs) (it : Nat) (g : TickOut), g ∈ (loop cfg env it ts).1 →
      g.rows = [] ∨
        ∃ d cds nf, (cfg.child_processes = false → cds = []) ∧
          g.rows = emitRows cfg env g.elapsed d cds nf := by
  intro ts
  induction ts with
  | nil => intro it g hg; simp [loop] at hg
  | cons t rest ih =>
    intro it g hg
    rw [loop_cons] at hg
    unfold loopStep at hg
    cases hf : fetchTick cfg t with
    | none =>
      rw [hf] at hg
      simp only [List.mem_singleton] at hg
      left; rw [hg]; rfl
    | some p =>
      obtain ⟨d, cds⟩ := p
      rw [hf] at hg
      have hnil : cfg.child_processes = false → cds = [] :=
        fun hcp => fetchTick_no_children hcp hf
      by_cases hcpu : d.cpu_percent.isNone = true
      · simp only [hcpu, if_true, List.mem_singleton] at hg
        left; rw [hg]; rfl
      · simp only [hcpu, if_false, Bool.false_eq_true] at hg
        by_cases hcap : matchesCap cfg (it + 1) = true
        · simp only [hcap, if_true, List.mem_singleton] at hg
          rw [hg]
          unfold tickRowsIfStream
          by_cases hs : cfg.has_output_stream = true
          · right
            exact ⟨d, cds, filesOf cfg env t, hnil, by rw [if_pos hs]⟩
          · left; rw [if_neg hs]
        · simp only [hcap, if_false, Bool.false_eq_true, List.mem_cons] at hg
          rcases hg with h1 | h1
          · rw [h1]
            unfold tickRowsIfStream
            by_cases hs : cfg.has_output_stream = true
            · right
              exact ⟨d, cds, filesOf cfg env t, hnil, by rw [if_pos hs]⟩
            · left; rw [if_neg hs]
          · exact ih (it + 1) g h1

theorem loop_elapsed_take {cfg : Config} {env : Env} :
    ∀ (ts : List TickObs) (it : Nat), ∃ k,
      (loop cfg env it ts).1.map TickOut.elapsed =
        (ts.take k).map (fun t => t.now - env.create_time) := by
  intro ts
  induction ts with
  | nil => intro it; exact ⟨0, by simp [loop]⟩
  | cons t rest ih =>
    intro it
    rw [loop_cons]
    unfold loopStep
    cases hf : fetchTick cfg t with
    | none => exact ⟨1, by simp [stopOut]⟩
    | some p =>
      obtain ⟨d, cds⟩ := p
      by_cases hcpu : d.cpu_percent.isNone = true
      · exact ⟨1, by simp [hcpu, stopOut]⟩
      · by_cases hcap : matchesCap cfg (it + 1) = true
        · exact ⟨1, by simp [hcpu, hcap]⟩
        · obtain ⟨k, hk⟩ := ih (it + 1)
          exact ⟨k + 1, by simp [hcpu, hcap, hk, List.take_succ_cons]⟩

theorem loop_result_ne_assert {cfg : Config} {env : Env} :
    ∀ (ts : List TickObs) (it : Nat),
      (loop cfg env it ts).2 ≠ PResult.assertError := by
  intro ts
  induction ts with
  | nil => intro it h; cases h
  | cons t rest ih =>
    intro it
    rw [loop_cons]
    unfold loopStep
    cases hf : fetchTick cfg t with
    | none => intro h; cases h
    | some p =>
      obtain ⟨d, cds⟩ := p
      by_cases hcpu : d.cpu_percent.isNone = true
      · simp [hcpu]
      · by_cases hcap : matchesCap cfg (it + 1) = true
        · simp [hcpu, hcap]
        · simpa [hcpu, hcap] using ih (it + 1)

theorem loop_result_ne_noSuch {cfg : Config} {env : Env} :
    ∀ (ts : List TickObs) (it : Nat),
      (loop cfg env it ts).2 ≠ PResult.noSuchProcess := by
  intro ts
  induction ts with
  | nil => intro it h; cases h
  | cons t rest ih =>
    intro it
    rw [loop_cons]
    unfold loopStep
    cases hf : fetchTick cfg t with
    | none => intro h; cases h
    | some p =>
      obtain ⟨d, cds⟩ := p
      by_cases hcpu : d.cpu_percent.isNone = true
      · simp [hcpu]
      · by_cases hcap : matchesCap cfg (it + 1) = true
        · simp [hcpu, hcap]
        · simpa [hcpu, hcap] using ih (it + 1)

theorem writesOf_append (a b : List Event) :
    writesOf (a ++ b) = writesOf a ++ writesOf b :=
  List.filterMap_append ..

theorem writesOf_map_write (rows : List (List String)) :
    writesOf (rows.map Event.write) = rows := by
  induction rows with
  | nil => rfl
  | cons r rs ih =>
    show r :: writesOf (rs.map Event.write) = r :: rs
    rw [ih]

theorem writesOf_tickEvents (g : TickOut) : writesOf (tickEvents g) = g.rows := by
  unfold tickEvents
  rw [writesOf_append, writesOf_append, writesOf_map_write]
  cases g.flushed <;> cases g.slept <;> simp [writesOf]

theorem writesOf_flatten (outs : List TickOut) :
    ∀ p ∈ writesOf ((outs.map tickEvents).flatten), ∃ g ∈ outs, p ∈ g.rows := by
  induction outs with
  | nil => intro p hp; simp [writesOf] at hp
  | cons g gs ih =>
    intro p hp
    rw [List.map_cons, List.flatten_cons, writesOf_append] at hp
    rcases List.mem_append.mp hp with h1 | h1
    · rw [writesOf_tickEvents] at h1
      exact ⟨g, by simp, h1⟩
    · obtain ⟨g', hg', hpg'⟩ := ih p h1
      exact ⟨g', by simp [hg'], hpg'⟩

theorem rowFields_getD0 (cfg : Config) (env : Env) (isMain : Bool) (e : ℚ)
    (item : ProcData) (nf : Option String) :
    (rowFields cfg env isMain e item nf).getD 0 "" =
      if isMain then "main" else "child" := by
  cases hof : cfg.output_files_num <;>
    simp [rowFields, colHeaders, COLUMNS_DESCRIPT, rowValue, hof]

theorem rowFields_getD2 (cfg : Config) (env : Env) (isMain : Bool) (e : ℚ)
    (item : ProcData) (nf : Option String) :
    (rowFields cfg env isMain e item nf).getD 2 "" = env.showFloat e := by
  cases hof : cfg.output_files_num <;>
    simp [rowFields, colHeaders, COLUMNS_DESCRIPT, rowValue, hof]

theorem rowFields_getD9 (cfg : Config) (env : Env) (isMain : Bool) (e : ℚ)
    (item : ProcData) (nf : Option String) (hof : cfg.output_files_num = true) :
    (rowFields cfg env isMain e item nf).getD 9 "" = nf.getD "-" := by
  cases nf <;> simp [rowFields, colHeaders, COLUMNS_DESCRIPT, rowValue, hof]

theorem emitRows_type {cfg : Config} {env : Env} {e : ℚ} {d : ProcData}
    {cds : List ProcData} {nf : Option String} :
    ∀ r ∈ emitRows cfg env e d cds nf,
      r.getD 0 "" = "main" ∨ r.getD 0 "" = "child" := by
  intro r hr
  rcases List.mem_cons.mp hr with h1 | h1
  · left; rw [h1, rowFields_getD0]; rfl
  · right
    obtain ⟨c, _, hc⟩ := List.mem_map.mp h1
    rw [← hc, rowFields_getD0]; rfl

theorem fetchTick_stream (cfg : Config) (b : Bool) (t : TickObs) :
    fetchTick {cfg with has_output_stream := b} t = fetchTick cfg t := rfl

theorem matchesCap_stream (cfg : Config) (b : Bool) (i : Nat) :
    matchesCap {cfg with has_output_stream := b} i = matchesCap cfg i := rfl

theorem filesOf_stream (cfg : Config) (b : Bool) (env : Env) (t : TickObs) :
    filesOf {cfg with has_output_stream := b} env t = filesOf cfg env t := rfl

theorem loop_stream_result {cfg : Config} {env : Env} (b : Bool) :
    ∀ (ts : List TickObs) (it : Nat),
      (loop {cfg with has_output_stream := b} env it ts).2 =
        (loop cfg env it ts).2 := by
  intro ts
  induction ts with
  | nil => intro it; rfl
  | cons t rest ih =>
    intro it
    rw [loop_cons, loop_cons]
    unfold loopStep
    rw [fetchTick_stream, matchesCap_stream, filesOf_stream]
    cases hf : fetchTick cfg t with
    | none => rfl
    | some p =>
      obtain ⟨d, cds⟩ := p
      by_cases hcpu : d.cpu_percent.isNone = true
      · simp [hcpu]
      · by_cases hcap : matchesCap cfg (it + 1) = true
        · simp [hcpu, hcap]
        · simpa [hcpu, hcap] using ih (it + 1)

theorem loop_stream_off {cfg : Config} {env : Env}
    (hs : cfg.has_output_stream = false) :
    ∀ (ts : List TickObs) (it : Nat) (g : TickOut), g ∈ (loop cfg env it ts).1 →
      g.rows = [] ∧ g.flushed = false := by
  intro ts
  induction ts with
  | nil => intro it g hg; simp [loop] at hg
  | cons t rest ih =>
    intro it g hg
    rw [loop_cons] at hg
    unfold loopStep at hg
    cases hf : fetchTick cfg t with
    | none =>
      rw [hf] at hg
      simp only [List.mem_singleton] at hg
      rw [hg]; exact ⟨rfl, rfl⟩
    | some p =>
      obtain ⟨d, cds⟩ := p
      rw [hf] at hg
      by_cases hcpu : d.cpu_percent.isNone = true
      · simp only [hcpu, if_true, List.mem_singleton] at hg
        rw [hg]; exact ⟨rfl, rfl⟩
      · simp only [hcpu, if_false, Bool.false_eq_true] at hg
        by_cases hcap : matchesCap cfg (it + 1) = true
        · simp only [hcap, if_true, List.mem_singleton] at hg
          rw [hg]
          exact ⟨by simp [tickRowsIfStream, hs], by simp [hs]⟩
        · simp only [hcap, if_false, Bool.false_eq_true, List.mem_cons] at hg
          rcases hg with h1 | h1
          · rw [h1]
            exact ⟨by simp [tickRowsIfStream, hs], by simp [hs]⟩
          · exact ih (it + 1) g h1

theorem profile_run {cfg : Config} {env : Env} {ticks : List TickObs}
    (hplat : cfg.output_files_num = true → (env.posix = true ∨ env.windows = true))
    (hpid : env.pid_exists = true) :
    profile_process cfg env ticks = loop cfg env 0 ticks := by
  have hc : (cfg.output_files_num && !(env.posix || env.windows)) = false := by
    cases hof : cfg.output_files_num
    · rfl
    · rcases hplat hof with h | h <;> simp [h]
  unfold profile_process
  rw [hc]
  simp [hpid]

theorem profile_trace_run {cfg : Config} {env : Env} {ticks : List TickObs}
    (hplat : cfg.output_files_num = true → (env.posix = true ∨ env.windows = true)) :
    profileTrace cfg env ticks =
      (headerEvents cfg ++ ((profile_process cfg env ticks).1.map tickEvents).flatten,
       (profile_process cfg env ticks).2) := by
  have hc : (cfg.output_files_num && !(env.posix || env.windows)) = false := by
    cases hof : cfg.output_files_num
    · rfl
    · rcases hplat hof with h | h <;> simp [h]
  unfold profileTrace
  rw [hc]
  simp

theorem profile_noSuch {cfg : Config} {env : Env} {ticks : List TickObs}
    (hplat : cfg.output_files_num = true → (env.posix = true ∨ env.windows = true))
    (hpid : env.pid_exists = false) :
    profile_process cfg env ticks = ([], PResult.noSuchProcess) := by
  have hc : (cfg.output_files_num && !(env.posix || env.windows)) = false := by
    cases hof : cfg.output_files_num
    · rfl
    · rcases hplat hof with h | h <;> simp [h]
  unfold profile_process
  rw [hc]
  simp [hpid]

theorem profile_assert {cfg : Config} {env : Env} {ticks : List TickObs}
    (hof : cfg.output_files_num = true) (hp : env.posix = false)
    (hw : env.windows = false) :
    profile_process cfg env ticks = ([], PResult.assertError) := by
  have hc : (cfg.output_files_num && !(env.posix || env.windows)) = true := by
    simp [hof, hp, hw]
  unfold profile_process
  rw [hc]
  rfl

theorem profileTrace_assert {cfg : Config} {env : Env} {ticks : List TickObs}
    (hof : cfg.output_files_num = true) (hp : env.posix = false)
    (hw : env.windows = false) :
    profileTrace cfg env ticks = ([], PResult.assertError) := by
  have hc : (cfg.output_files_num && !(env.posix || env.windows)) = true := by
    simp [hof, hp, hw]
  unfold profileTrace
  rw [hc]
  rfl

theorem profile_stream_result (cfg : Config) (env : Env) (ticks : List TickObs)
    (b : Bool) :
    (profile_process {cfg with has_output_stream := b} env ticks).2 =
      (profile_process cfg env ticks).2 := by
  by_cases hplat : cfg.output_files_num = true → (env.posix = true ∨ env.windows = true)
  · have hplat' : ({cfg with has_output_stream := b} : Config).output_files_num = true →
        (env.posix = true ∨ env.windows = true) := hplat
    cases hpid : env.pid_exists with
    | true =>
      rw [profile_run hplat hpid, profile_run hplat' hpid]
      exact loop_stream_result b ticks 0
    | false => rw [profile_noSuch hplat hpid, profile_noSuch hplat' hpid]
  · push_neg at hplat
    obtain ⟨hof, hp, hw⟩ := hplat
    have hp' : env.posix = false := by simpa using hp
    have hw' : env.windows = false := by simpa using hw
    have hof' : ({cfg with has_output_stream := b} : Config).output_files_num = true := hof
    rw [profile_assert hof hp' hw', profile_assert hof' hp' hw']

theorem tickEvents_sleep {g : TickOut} (h1 : g.rows = []) (h2 : g.flushed = false) :
    ∀ e ∈ tickEvents g, e = Event.sleep := by
  intro e he
  unfold tickEvents at he
  rw [h1, h2] at he
  cases hsl : g.slept <;> rw [hsl] at he <;> simp at he
  exact he

theorem profile_rows_shape (cfg : Config) (env : Env) (ticks : List TickObs) :
    ∀ g ∈ (profile_process cfg env ticks).1,
      g.rows = [] ∨
        ∃ d cds nf, (cfg.child_processes = false → cds = []) ∧
          g.rows = emitRows cfg env g.elapsed d cds nf := by
  intro g hg
  by_cases hplat : cfg.output_files_num = true → (env.posix = true ∨ env.windows = true)
  · cases hpid : env.pid_exists with
    | true =>
      rw [profile_run hplat hpid] at hg
      exact loop_rows_shape ticks 0 g hg
    | false =>
      rw [profile_noSuch hplat hpid] at hg
      simp at hg
  · push_neg at hplat
    obtain ⟨hof, hp, hw⟩ := hplat
    rw [profile_assert hof (by simpa using hp) (by simpa using hw)] at hg
    simp at hg

example : colHeaders false =
    ["type", "pid", "elapsed_secs", "cpu_time_user_secs", "cpu_time_sys_secs",
     "cpu_percent", "threads_num", "memory_rss_bytes", "memory_vms_bytes"] := by
  decide

example :
    renderLine "," (colHeaders false) =
      "type,pid,elapsed_secs,cpu_time_user_secs,cpu_time_sys_secs,cpu_percent,threads_num,memory_rss_bytes,memory_vms_bytes\n" := by
  rfl

/-! ### Claims -/

/-- C9: for every call with `output_files_num` enabled on a platform that is
neither POSIX nor Windows, the `assert POSIX or WINDOWS` fails at session
start: the result is the assertion error, the effect trace is empty (no header
and no row was written), and — since this holds for every tick list — no
polling ever occurs and the check is never re-examined mid-run. -/
theorem c9_unsupported_platform_asserts_before_polling (cfg : Config) (env : Env)
    (ticks : List TickObs) (hof : cfg.output_files_num = true)
    (hp : env.posix = false) (hw : env.windows = false) :
    profileTrace cfg env ticks = ([], PResult.assertError) ∧
      profile_process cfg env ticks = ([], PResult.assertError) :=
  ⟨profileTrace_assert hof hp hw, profile_assert hof hp hw⟩

/-- Witness for C9: a concrete session requesting file counts on a platform
that is neither POSIX nor Windows asserts with an empty trace. -/
theorem c9_witness :
    profileTrace {cfgW with output_files_num := true} {envW with posix := false}
        [tickW] = ([], PResult.assertError) :=
  (c9_unsupported_platform_asserts_before_polling
    {cfgW with output_files_num := true} {envW with posix := false} [tickW]
    rfl rfl rfl).1

/-- C1 counterexample: with headers enabled and a stream supplied, a session
whose pid does not exist still writes the header line — `psutil.Process(pid)`
(line 71 of api.py) is only constructed after the header write (lines 65-68),
so the claim "no header row … is written" is false.  At this concrete input
the trace is exactly one header write, followed by the not-found error. -/
theorem c1_counterexample :
    (profileTrace cfgW {envW with pid_exists := false} []).2 =
        PResult.noSuchProcess ∧
      writesOf (profileTrace cfgW {envW with pid_exists := false} []).1 ≠ [] := by
  constructor
  · decide
  · decide

/-- C1 amended: starting on a pid that does not exist reports the not-found
error immediately (no tick observation is consumed) and writes no data row;
however, the header block (when headers are enabled and a stream is supplied)
has already been written by the time the error is raised, so the trace equals
exactly the header events. -/
theorem c1_notfound_immediate_no_data_rows (cfg : Config) (env : Env)
    (ticks : List TickObs)
    (hplat : cfg.output_files_num = true → (env.posix = true ∨ env.windows = true))
    (hpid : env.pid_exists = false) :
    profile_process cfg env ticks = ([], PResult.noSuchProcess) ∧
      profileTrace cfg env ticks = (headerEvents cfg, PResult.noSuchProcess) := by
  have h1 : profile_process cfg env ticks = ([], PResult.noSuchProcess) :=
    profile_noSuch hplat hpid
  refine ⟨h1, ?_⟩
  rw [profile_trace_run hplat, h1]
  simp

/-- Witness for C1's amended statement at a concrete session. -/
theorem c1_witness :
    profile_process cfgW {envW with pid_exists := false} [tickW] =
        ([], PResult.noSuchProcess) ∧
      profileTrace cfgW {envW with pid_exists := false} [tickW] =
        (headerEvents cfgW, PResult.noSuchProcess) :=
  c1_notfound_immediate_no_data_rows cfgW {envW with pid_exists := false} [tickW]
    (by decide) rfl

/-- C5: in every session with headers enabled, a stream supplied, comma
separator and `output_files_num` disabled, the very first effect on the
stream is a single write of the nine documented column names in their
documented order; rendered with the session separator, that first line is
exactly the documented header string, and no later write of the session
equals the header (it is written once, before any data row). -/
theorem c5_header_first_line (cfg : Config) (env : Env) (ticks : List TickObs)
    (hh : cfg.headers = true) (hs : cfg.has_output_stream = true)
    (hsep : cfg.output_separator = ",") (hof : cfg.output_files_num = false) :
    ∃ rest, (profileTrace cfg env ticks).1 =
        Event.write (colHeaders cfg.output_files_num) :: rest ∧
      colHeaders cfg.output_files_num =
        ["type", "pid", "elapsed_secs", "cpu_time_user_secs",
         "cpu_time_sys_secs", "cpu_percent", "threads_num",
         "memory_rss_bytes", "memory_vms_bytes"] ∧
      renderLine cfg.output_separator (colHeaders cfg.output_files_num) =
        "type,pid,elapsed_secs,cpu_time_user_secs,cpu_time_sys_secs,cpu_percent,threads_num,memory_rss_bytes,memory_vms_bytes\n" ∧
      ∀ p ∈ writesOf rest, p ≠ colHeaders cfg.output_files_num := by
  have hplat : cfg.output_files_num = true → (env.posix = true ∨ env.windows = true) := by
    rw [hof]; intro h; cases h
  rw [profile_trace_run hplat]
  refine ⟨(if cfg.flush_output then [Event.flush] else []) ++
      ((profile_process cfg env ticks).1.map tickEvents).flatten, ?_, ?_, ?_, ?_⟩
  · simp [headerEvents, hh, hs]
  · rw [hof]; rfl
  · rw [hof, hsep]; rfl
  · intro p hp
    rw [writesOf_append] at hp
    rcases List.mem_append.mp hp with h1 | h1
    · cases hfl : cfg.flush_output <;> rw [hfl] at h1 <;> simp [writesOf] at h1
    · obtain ⟨g, hg, hpg⟩ := writesOf_flatten _ p h1
      rcases profile_rows_shape cfg env ticks g hg with h0 | ⟨d, cds, nf, _, hrows⟩
      · rw [h0] at hpg; cases hpg
      · rw [hrows] at hpg
        intro heq
        rcases emitRows_type p hpg with ht | ht <;>
          rw [heq, hof] at ht <;> revert ht <;> decide

/-- Witness for C5 at a concrete session. -/
theorem c5_witness :
    ∃ rest, (profileTrace cfgW envW [tickW]).1 =
        Event.write (colHeaders cfgW.output_files_num) :: rest ∧
      colHeaders cfgW.output_files_num =
        ["type", "pid", "elapsed_secs", "cpu_time_user_secs",
         "cpu_time_sys_secs", "cpu_percent", "threads_num",
         "memory_rss_bytes", "memory_vms_bytes"] ∧
      renderLine cfgW.output_separator (colHeaders cfgW.output_files_num) =
        "type,pid,elapsed_secs,cpu_time_user_secs,cpu_time_sys_secs,cpu_percent,threads_num,memory_rss_bytes,memory_vms_bytes\n" ∧
      ∀ p ∈ writesOf rest, p ≠ colHeaders cfgW.output_files_num :=
  c5_header_first_line cfgW envW [tickW] rfl rfl rfl rfl

/-- C10: with `output_stream=None` nothing is ever written — the effect trace
contains only sleeps (no write and no flush, not even a header) — while the
session result (which stopping condition fired, or whether the cap's
`TimeoutError` was raised) is identical to a run of the same session with a
stream supplied. -/
theorem c10_none_stream_writes_nothing_same_result (cfg : Config) (env : Env)
    (ticks : List TickObs) :
    (profile_process {cfg with has_output_stream := false} env ticks).2 =
        (profile_process {cfg with has_output_stream := true} env ticks).2 ∧
      ∀ e ∈ (profileTrace {cfg with has_output_stream := false} env ticks).1,
        e = Event.sleep := by
  constructor
  · rw [profile_stream_result cfg env ticks false,
      profile_stream_result cfg env ticks true]
  · intro e he
    by_cases hplat : cfg.output_files_num = true → (env.posix = true ∨ env.windows = true)
    · have hplat' : ({cfg with has_output_stream := false} : Config).output_files_num = true →
          (env.posix = true ∨ env.windows = true) := hplat
      rw [profile_trace_run hplat'] at he
      have hhdr : headerEvents {cfg with has_output_stream := false} = [] := by
        simp [headerEvents]
      rw [hhdr, List.nil_append] at he
      obtain ⟨es, hes, hees⟩ := List.mem_flatten.mp he
      obtain ⟨g, hg, hge⟩ := List.mem_map.mp hes
      cases hpid : env.pid_exists with
      | true =>
        rw [profile_run hplat' hpid] at hg
        obtain ⟨hr0, hf0⟩ := loop_stream_off rfl ticks 0 g hg
        rw [← hge] at hees
        exact tickEvents_sleep hr0 hf0 e hees
      | false =>
        rw [profile_noSuch hplat' hpid] at hg
        simp at hg
    · push_neg at hplat
      obtain ⟨hof, hp, hw⟩ := hplat
      have hof' : ({cfg with has_output_stream := false} : Config).output_files_num = true := hof
      rw [profileTrace_assert hof' (by simpa using hp) (by simpa using hw)] at he
      simp at he

/-- C7: within one session, the elapsed value computed at each successive
tick (`time.time() - proc.create_time()`, with the creation time cached for
the session) is monotonically non-decreasing whenever the wall clock readings
are monotone. -/
theorem c7_elapsed_monotone (cfg : Config) (env : Env) (ticks : List TickObs)
    (hmono : List.Chain' (· ≤ ·) (ticks.map TickObs.now)) :
    List.Chain' (· ≤ ·)
      ((profile_process cfg env ticks).1.map TickOut.elapsed) := by
  by_cases hplat : cfg.output_files_num = true → (env.posix = true ∨ env.windows = true)
  · cases hpid : env.pid_exists with
    | true =>
      rw [profile_run hplat hpid]
      obtain ⟨k, hk⟩ := loop_elapsed_take ticks 0
      rw [hk]
      have h1 : List.Chain' (fun a b : TickObs => a.now ≤ b.now) ticks :=
        (List.chain'_map TickObs.now).mp hmono
      have h2 := h1.take k
      have h3 : List.Chain'
          (fun a b : TickObs =>
            a.now - env.create_time ≤ b.now - env.create_time) (ticks.take k) :=
        h2.imp fun a b hab => sub_le_sub_right hab _
      exact (List.chain'_map _).mpr h3
    | false =>
      rw [profile_noSuch hplat hpid]
      simp
  · push_neg at hplat
    obtain ⟨hof, hp, hw⟩ := hplat
    rw [profile_assert hof (by simpa using hp) (by simpa using hw)]
    simp

/-- Witness for C7 at a concrete two-tick session with increasing clock. -/
theorem c7_witness :
    List.Chain' (· ≤ ·) (([tickW, tickZombie].map TickObs.now : List ℚ)) ∧
      List.Chain' (· ≤ ·)
        ((profile_process cfgW envW [tickW, tickZombie]).1.map TickOut.elapsed) := by
  have hm : List.Chain' (· ≤ ·) (([tickW, tickZombie].map TickObs.now : List ℚ)) := by
    rw [show ([tickW, tickZombie].map TickObs.now : List ℚ) = [5, 6] from rfl]
    exact List.chain'_pair.mpr (by norm_num)
  exact ⟨hm, c7_elapsed_monotone cfgW envW [tickW, tickZombie] hm⟩

/-- C4: for every positive poll interval and positive cap `N`, a session
against a target that stays alive and fully queryable for `N` ticks produces
exactly the `N` ticks' outputs of `goodRun` and then raises `TimeoutError`
(`PResult.timeout`) — a distinguished signal, not a normal return.  Each data
row has exactly as many fields as the active header; the first `N - 1` ticks
end in a sleep and the capped tick does not (so the sleep always follows a
tick's rows, never precedes the first tick, and never follows the signal) —
the flat trace is the header block followed by the per-tick blocks of
`goodRun`. -/
theorem c4_cap_yields_n_ticks_then_timeout (cfg : Config) (env : Env)
    (ticks : List TickObs) (N : Nat) (hpoll : 0 < cfg.poll_interval)
    (hcap : cfg.max_iterations = some N) (hN : 1 ≤ N) (hlen : N ≤ ticks.length)
    (hgood : ∀ u ∈ ticks.take N, goodTick cfg u = true)
    (hplat : cfg.output_files_num = true → (env.posix = true ∨ env.windows = true))
    (hpid : env.pid_exists = true) :
    profile_process cfg env ticks = (goodRun cfg env N ticks, PResult.timeout) ∧
      (goodRun cfg env N ticks).length = N ∧
      (goodRun cfg env N ticks).map TickOut.slept =
        List.replicate (N - 1) true ++ [false] ∧
      (profileTrace cfg env ticks).1 =
        headerEvents cfg ++ ((goodRun cfg env N ticks).map tickEvents).flatten ∧
      ∀ g ∈ goodRun cfg env N ticks, ∀ r ∈ g.rows,
        r.length = (colHeaders cfg.output_files_num).length := by
  have hmain : profile_process cfg env ticks =
      (goodRun cfg env N ticks, PResult.timeout) := by
    rw [profile_run hplat hpid]
    exact loop_goodRun hcap N ticks 0 hN hlen hgood (by omega)
  refine ⟨hmain, goodRun_length N ticks hN hlen, goodRun_slept N ticks hN hlen,
    ?_, ?_⟩
  · rw [profile_trace_run hplat, hmain]
  · intro g hg r hr
    obtain ⟨u, b, rfl⟩ := goodRun_mem N ticks g hg
    simp only [goodOut] at hr
    unfold tickRowsIfStream at hr
    by_cases hso : cfg.has_output_stream = true
    · rw [if_pos hso] at hr
      exact emitRows_row_length r hr
    · rw [if_neg hso] at hr
      simp at hr

/-- Witness for C4: a two-tick capped session at a concrete configuration. -/
theorem c4_witness :
    profile_process cfgW envW [tickW, tickW] =
        (goodRun cfgW envW 2 [tickW, tickW], PResult.timeout) ∧
      (goodRun cfgW envW 2 [tickW, tickW]).length = 2 ∧
      (goodRun cfgW envW 2 [tickW, tickW]).map TickOut.slept =
        List.replicate (2 - 1) true ++ [false] ∧
      (profileTrace cfgW envW [tickW, tickW]).1 =
        headerEvents cfgW ++
          ((goodRun cfgW envW 2 [tickW, tickW]).map tickEvents).flatten ∧
      ∀ g ∈ goodRun cfgW envW 2 [tickW, tickW], ∀ r ∈ g.rows,
        r.length = (colHeaders cfgW.output_files_num).length :=
  c4_cap_yields_n_ticks_then_timeout cfgW envW [tickW, tickW] 2
    (by norm_num [cfgW]) rfl (by decide) (by decide) (by decide) (by decide) rfl

/-- C6: every tick that emits rows emits the main row first, then zero or
more child rows; the `type` field is `"main"` exactly on the first row and
`"child"` on the rest, every row of the tick carries the identical
`elapsed_secs` field (the main process's elapsed time rendered once and
reused), and when `child_processes` is disabled there are no child rows, so
every emitted row of the session is a `"main"` row. -/
theorem c6_main_first_shared_elapsed (cfg : Config) (env : Env)
    (ticks : List TickObs) :
    ∀ g ∈ (profile_process cfg env ticks).1, g.rows ≠ [] →
      ∃ m cs, g.rows = m :: cs ∧ m.getD 0 "" = "main" ∧
        (∀ r ∈ cs, r.getD 0 "" = "child") ∧
        (∀ r ∈ g.rows, r.getD 2 "" = env.showFloat g.elapsed) ∧
        (cfg.child_processes = false → cs = []) := by
  intro g hg hne
  rcases profile_rows_shape cfg env ticks g hg with h0 | ⟨d, cds, nf, hnil, hrows⟩
  · exact absurd h0 hne
  · refine ⟨rowFields cfg env true g.elapsed d nf,
      cds.map (fun c => rowFields cfg env false g.elapsed c none),
      by rw [hrows]; rfl, by rw [rowFields_getD0]; decide, ?_, ?_, ?_⟩
    · intro r hr
      obtain ⟨c, _, hc⟩ := List.mem_map.mp hr
      rw [← hc, rowFields_getD0]
      decide
    · intro r hr
      rw [hrows] at hr
      rcases List.mem_cons.mp hr with h1 | h1
      · rw [h1, rowFields_getD2]
      · obtain ⟨c, _, hc⟩ := List.mem_map.mp h1
        rw [← hc, rowFields_getD2]
    · intro hcp
      rw [hnil hcp]
      rfl

/-- Witness for C6 at the first tick of a concrete session with one child. -/
theorem c6_witness :
    ∃ m cs, (goodOut cfgW envW tickW true).rows = m :: cs ∧
      m.getD 0 "" = "main" ∧
      (∀ r ∈ cs, r.getD 0 "" = "child") ∧
      (∀ r ∈ (goodOut cfgW envW tickW true).rows,
        r.getD 2 "" = envW.showFloat (goodOut cfgW envW tickW true).elapsed) ∧
      (cfgW.child_processes = false → cs = []) :=
  c6_main_first_shared_elapsed cfgW envW [tickW] (goodOut cfgW envW tickW true)
    (by
      rw [show (profile_process cfgW envW [tickW]).1 =
        [goodOut cfgW envW tickW true] from rfl]
      exact List.mem_singleton.mpr rfl)
    (by decide)

/-- C8: if, on some tick, the target is no longer running, or is reported in
zombie state, or the main `cpu_percent` reading comes back `None` on an
otherwise fully queryable tick, the session stops with a plain return
(`PResult.normal`, the `break` statements) — not a raised error — and the
output already produced by the earlier ticks is unchanged: the run's output is
exactly the earlier ticks' rows followed by the empty record of the stopping
tick. -/
theorem c8_stop_conditions_clean_stop (cfg : Config) (env : Env)
    (pre post : List TickObs) (t : TickObs)
    (hplat : cfg.output_files_num = true → (env.posix = true ∨ env.windows = true))
    (hpid : env.pid_exists = true)
    (hpre : ∀ u ∈ pre, goodTick cfg u = true)
    (hcap : ∀ m, cfg.max_iterations = some m → pre.length < m)
    (hstop : stopsTick cfg t = true) :
    profile_process cfg env (pre ++ t :: post) =
      (pre.map (fun u => goodOut cfg env u true) ++ [stopOut env t],
       PResult.normal) := by
  rw [profile_run hplat hpid]
  exact run_pre_break post (stopsTick_breaks hstop) pre 0 hpre
    (fun m hm => by have := hcap m hm; omega)

/-- Witness for C8: one good tick, then a zombie tick, at a concrete
session. -/
theorem c8_witness :
    profile_process cfgW envW ([tickW] ++ tickZombie :: []) =
      ([tickW].map (fun u => goodOut cfgW envW u true) ++ [stopOut envW tickZombie],
       PResult.normal) :=
  c8_stop_conditions_clean_stop cfgW envW [tickW] [] tickZombie (by decide) rfl
    (by decide)
    (fun m hm => by
      have h1 : ([tickW] : List TickObs).length = 1 := rfl
      have h2 : (some 2 : Option Nat) = some m := hm
      have h3 : 2 = m := by simpa using h2
      omega)
    (by decide)

/-- C2 counterexample: on a tick where one enumerated child vanishes before
its metric fetch (`children = [none, some cW]`), the `NoSuchProcess` raised
inside the list comprehension (lines 83-85 of api.py) is caught by the
`except` clause at line 88, which `break`s the whole loop: contrary to the
claim, the tick emits no rows at all (not even for the main process or the
surviving child — the only line ever written is the header) and the session
stops.  Concretely, the run's only tick record carries zero rows and the
result is a plain return. -/
theorem c2_counterexample :
    (profile_process cfgW envW [tickVanish]).2 = PResult.normal ∧
      (profile_process cfgW envW [tickVanish]).1.map TickOut.rows = [[]] ∧
      writesOf (profileTrace cfgW envW [tickVanish]).1 = [colHeaders false] :=
  ⟨by decide, by decide, by decide⟩

/-- C2 amended: if a descendant exits between enumeration and its metric
fetch, the raised `NoSuchProcess` ends the whole session: the offending tick
emits no rows (its record is the empty `stopOut`), the rows of earlier ticks
are untouched, and the session stops cleanly with a normal return — no error
propagates, but the tick is abandoned rather than completed. -/
theorem c2_vanished_child_ends_session (cfg : Config) (env : Env)
    (pre post : List TickObs) (t : TickObs)
    (hplat : cfg.output_files_num = true → (env.posix = true ∨ env.windows = true))
    (hpid : env.pid_exists = true)
    (hpre : ∀ u ∈ pre, goodTick cfg u = true)
    (hcap : ∀ m, cfg.max_iterations = some m → pre.length < m)
    (hv : vanishedChildTick cfg t = true) :
    profile_process cfg env (pre ++ t :: post) =
      (pre.map (fun u => goodOut cfg env u true) ++ [stopOut env t],
       PResult.normal) := by
  rw [profile_run hplat hpid]
  exact run_pre_break post (vanishedChild_breaks hv) pre 0 hpre
    (fun m hm => by have := hcap m hm; omega)

/-- Witness for C2's amended statement at a concrete session. -/
theorem c2_witness :
    profile_process cfgW envW ([] ++ tickVanish :: []) =
      ([].map (fun u => goodOut cfgW envW u true) ++ [stopOut envW tickVanish],
       PResult.normal) :=
  c2_vanished_child_ends_session cfgW envW [] [] tickVanish (by decide) rfl
    (by decide)
    (fun m hm => by
      have h2 : (some 2 : Option Nat) = some m := hm
      have h3 : 2 = m := by simpa using h2
      simp
      omega)
    (by decide)

/-- C3 counterexample: with `output_files_num` enabled on POSIX, the code
queries `num_fds` only for the main process (lines 90-98 of api.py set
`data["num_files"]` on the main bag alone); a surviving, fully queryable
child's `files_num` field is rendered as the placeholder `"-"` on the very
same tick on which the query succeeded (the main row shows `"7"`), so the
claim that the count is fetched for every surviving child is false. -/
theorem c3_counterexample :
    tickW.files_query = some "7" ∧
      ((((profile_process {cfgW with output_files_num := true} envW [tickW]).1.headD
          default).rows.getD 0 []).getD 9 "" = "7") ∧
      ((((profile_process {cfgW with output_files_num := true} envW [tickW]).1.headD
          default).rows.getD 1 []).getD 9 "" = "-") :=
  ⟨rfl, by decide, by decide⟩

/-- C3 amended: with `output_files_num` enabled, the file-descriptor/handle
count is fetched only for the main process; the main row's `files_num` field
renders the query result, or the placeholder `"-"` when the query failed
because the process vanished or permission was denied (`filesOf` is `none`);
every child row's `files_num` field is always the placeholder `"-"`; and the
tick completes and the loop continues (the tick's record is emitted with its
sleep and the remaining iterations run). -/
theorem c3_files_count_only_for_main (cfg : Config) (env : Env) (t : TickObs)
    (rest : List TickObs)
    (hplat : cfg.output_files_num = true → (env.posix = true ∨ env.windows = true))
    (hpid : env.pid_exists = true) (hg : goodTick cfg t = true)
    (hof : cfg.output_files_num = true) (hs : cfg.has_output_stream = true)
    (hcap1 : matchesCap cfg 1 = false) :
    ∃ outs res, profile_process cfg env (t :: rest) =
        (goodOut cfg env t true :: outs, res) ∧
      ((goodOut cfg env t true).rows.getD 0 []).getD 9 "" =
        (filesOf cfg env t).getD "-" ∧
      ∀ r ∈ (goodOut cfg env t true).rows.tail, r.getD 9 "" = "-" := by
  refine ⟨(loop cfg env 1 rest).1, (loop cfg env 1 rest).2, ?_, ?_, ?_⟩
  · rw [profile_run hplat hpid, loop_cont 0 rest hg hcap1]
  · simp only [goodOut]
    unfold tickRowsIfStream
    rw [if_pos hs]
    unfold emitRows
    rw [List.getD_cons_zero,
      rowFields_getD9 cfg env true (t.now - env.create_time) (mainOf t)
        (filesOf cfg env t) hof]
  · intro r hr
    simp only [goodOut] at hr
    unfold tickRowsIfStream at hr
    rw [if_pos hs] at hr
    unfold emitRows at hr
    rw [List.tail_cons] at hr
    obtain ⟨c, _, hc⟩ := List.mem_map.mp hr
    rw [← hc,
      rowFields_getD9 cfg env false (t.now - env.create_time) c none hof]
    rfl

/-- Witness for C3's amended statement at a concrete POSIX session with one
surviving child and a successful main-process query. -/
theorem c3_witness :
    ∃ outs res, profile_process {cfgW with output_files_num := true} envW
        (tickW :: []) =
        (goodOut {cfgW with output_files_num := true} envW tickW true :: outs,
         res) ∧
      ((goodOut {cfgW with output_files_num := true} envW tickW true).rows.getD
          0 []).getD 9 "" =
        (filesOf {cfgW with output_files_num := true} envW tickW).getD "-" ∧
      ∀ r ∈ (goodOut {cfgW with output_files_num := true} envW tickW
          true).rows.tail, r.getD 9 "" = "-" :=
  c3_files_count_only_for_main {cfgW with output_files_num := true} envW tickW
    [] (by decide) rfl (by decide) rfl rfl (by decide)

/-- Witness for C10: at a concrete session, the run without a stream stops
with the same signal as the run with a stream, and its trace holds no write
or flush event. -/
theorem c10_witness :
    (profile_process {cfgW with has_output_stream := false} envW
          [tickW, tickZombie]).2 =
        (profile_process {cfgW with has_output_stream := true} envW
          [tickW, tickZombie]).2 ∧
      ∀ e ∈ (profileTrace {cfgW with has_output_stream := false} envW
          [tickW, tickZombie]).1, e = Event.sleep :=
  c10_none_stream_writes_nothing_same_result cfgW envW [tickW, tickZombie]
